import Mathlib

/-!
Shallow embedding of `collect_hwid.py` (autodrive-license-client).

The script reads a fixed set of system files and subprocess outputs,
normalizes them into `label:value` component tokens, sorts the tokens,
hashes the newline-join with SHA-256, and emits a license-request record.
The file system, environment variables and the one subprocess are modelled
as a `World` record of optional string contents (`none` = read/exec fails);
every function of the script becomes a pure function of the `World`.
-/

namespace HwidClient

/-! ### Character and string primitives (Python `str` / `re` behaviour) -/

/-- ASCII whitespace, the characters matched by Python `\s` on the inputs
involved here. -/
def isWSChar (c : Char) : Bool :=
  c = ' ' || c = '\t' || c = '\n' || c = '\r' || c = '\x0b' || c = '\x0c'

/-- Python `str.lower()` (ASCII range, which covers all values involved). -/
def lowerStr (s : String) : String :=
  String.mk (s.toList.map Char.toLower)

/-- Python `re.sub(r"\s+", "", s)`: delete every whitespace character. -/
def removeWS (s : String) : String :=
  String.mk (s.toList.filter (fun c => !isWSChar c))

/-- Python `str.strip()`: drop leading and trailing whitespace. -/
def stripWS (s : String) : String :=
  String.mk (((s.toList.dropWhile isWSChar).reverse.dropWhile isWSChar).reverse)

/-- The first line of a file, as `f.readline()` yields it up to the newline. -/
def firstLine (s : String) : String :=
  String.mk (s.toList.takeWhile (fun c => c ≠ '\n'))

/-- Split on `'\n'`; always returns at least one (possibly empty) group. -/
def splitNL : List Char → List (List Char)
  | [] => [[]]
  | c :: cs =>
    if c = '\n' then [] :: splitNL cs
    else
      match splitNL cs with
      | [] => [[c]]
      | g :: gs => (c :: g) :: gs

/-- Python `str.splitlines()` for `'\n'`-terminated text: a trailing newline
does not produce a trailing empty line. -/
def splitLinesStr (s : String) : List String :=
  let ps := splitNL s.toList
  let ps := if ps.getLast? = some [] then ps.dropLast else ps
  ps.map String.mk

/-- Python `re.split(r"\s+", s)`: pieces between maximal whitespace runs,
with an empty piece at an edge when the string starts or ends with
whitespace. -/
def reSplitWS (s : String) : List String :=
  let step := fun (st : List String × List Char × Bool) (c : Char) =>
    let (done, cur, inWS) := st
    if isWSChar c then
      if inWS then st else (String.mk cur.reverse :: done, [], true)
    else (done, c :: cur, false)
  let fin := s.toList.foldl step ([], [], false)
  (String.mk fin.2.1.reverse :: fin.1).reverse

/-- `pat` occurs at the head of `cs`. -/
def charsHasPrefix : List Char → List Char → Bool
  | [], _ => true
  | _ :: _, [] => false
  | p :: ps, c :: cs => p = c && charsHasPrefix ps cs

/-- Index of the first occurrence of `pat` in `cs` (Python `str.find`,
with `none` for `-1`). -/
def charsFindIdx (pat : List Char) : List Char → Option Nat
  | [] => if pat.isEmpty then some 0 else none
  | c :: cs =>
    if charsHasPrefix pat (c :: cs) then some 0
    else (charsFindIdx pat cs).map (· + 1)

/-- Python `pat in s` substring test. -/
def containsSubstrB (s pat : String) : Bool :=
  (charsFindIdx pat.toList s.toList).isSome

/-- Lexicographic code-point comparison on character lists (Python's
`str` order). -/
def charListLe : List Char → List Char → Bool
  | [], _ => true
  | _ :: _, [] => false
  | a :: as, b :: bs =>
    if a < b then true
    else if b < a then false
    else charListLe as bs

/-- `a <= b` for strings, by code points, as Python compares `str`. -/
def strLe (a b : String) : Bool :=
  charListLe a.toList b.toList

/-- Lexicographic string sort, as Python `sorted` on `str` (code-point
order). -/
def sortStrings (l : List String) : List String :=
  l.insertionSort (fun a b => strLe a b = true)

/-! ### The world the script reads

`none` models a failing `open`/`read_text`/`check_output`; `some s` a
successful read yielding `s`. -/

/-- One subdirectory of `/proc/driver/nvidia/gpus`: its name and the content
of its `information` file. -/
structure GpuDirEntry where
  name : String
  information : Option String
  deriving Repr, DecidableEq

/-- One entry of `/sys/block`: device name, `removable` flag file and
`device/cid` file. -/
structure BlockDev where
  name : String
  removable : Option String
  cid : Option String
  deriving Repr, DecidableEq

/-- The fixed system inputs of the script. -/
structure World where
  /-- `/sys/class/dmi/id/board_name` -/
  board_name : Option String
  /-- `WSL_INTEROP` or `WSL_DISTRO_NAME` set to a truthy value -/
  wsl_env : Bool
  /-- `/proc/sys/kernel/osrelease` -/
  osrelease : Option String
  /-- `/proc/cpuinfo` -/
  cpuinfo : Option String
  /-- `/sys/firmware/devicetree/base/compatible` -/
  devtree_compat : Option String
  /-- `/proc/driver/nvidia/gpus` directory listing (`none` = absent) -/
  nvidia_dir : Option (List GpuDirEntry)
  /-- stdout of `nvidia-smi -L` (`none` = command fails) -/
  nvidia_smi : Option String
  /-- `/sys/block` directory listing (`none` = absent) -/
  sys_block : Option (List BlockDev)
  deriving Repr, DecidableEq

/-- `read_all(p)`: whole file, `""` on error. -/
def read_all (content : Option String) : String :=
  content.getD ""

/-- `read_first_line(p)`: first line, stripped, whitespace removed,
lower-cased; `""` on error. -/
def read_first_line (content : Option String) : String :=
  match content with
  | none => ""
  | some c => lowerStr (removeWS (stripWS (firstLine c)))

/-- `is_tegra()`: device-tree compatible string contains `nvidia,tegra`. -/
def is_tegra (w : World) : Bool :=
  containsSubstrB (lowerStr (read_all w.devtree_compat)) "nvidia,tegra"

/-- `is_wsl()`: WSL environment hint, or `microsoft`/`wsl` in the kernel
release string. -/
def is_wsl (w : World) : Bool :=
  w.wsl_env ||
    (let rel := lowerStr (read_all w.osrelease)
     containsSubstrB rel "microsoft" || containsSubstrB rel "wsl")

/-! ### CPU identity collector (`parse_cpuinfo`) -/

def keepFlagsX86 : List String := ["sse2", "sse4_2", "avx", "avx2", "avx512f"]

def keepFlagsARM : List String :=
  ["asimd", "aes", "crc32", "sha1", "sha2", "atomics", "asimdrdm"]

/-- The raw fields accumulated over the first `/proc/cpuinfo` block. -/
structure CpuRaw where
  vendor : String := ""
  family : String := ""
  model : String := ""
  stepping : String := ""
  flags : String := ""
  impl : String := ""
  arch : String := ""
  variant : String := ""
  part : String := ""
  rev : String := ""
  deriving Repr, DecidableEq

/-- Process one `key : value` line of `/proc/cpuinfo` (lines without a colon
are skipped; later lines override earlier ones). -/
def cpuLineUpdate (st : CpuRaw) (line : String) : CpuRaw :=
  let cs := line.toList
  if !(cs.contains ':') then st
  else
    let kRaw := cs.takeWhile (fun c => c ≠ ':')
    let vRaw := (cs.dropWhile (fun c => c ≠ ':')).drop 1
    let k := lowerStr (removeWS (String.mk kRaw))
    let v := lowerStr (stripWS (String.mk vRaw))
    if k = "vendor_id" then { st with vendor := removeWS v }
    else if k = "cpufamily" || k = "cpu family" then { st with family := removeWS v }
    else if k = "model" then { st with model := removeWS v }
    else if k = "stepping" then { st with stepping := removeWS v }
    else if k = "flags" || k = "features" then { st with flags := v }
    else if k = "cpuimplementer" then { st with impl := removeWS v }
    else if k = "cpuarchitecture" then { st with arch := removeWS v }
    else if k = "cpuvariant" then { st with variant := removeWS v }
    else if k = "cpupart" then { st with part := removeWS v }
    else if k = "cpurevision" then { st with rev := removeWS v }
    else st

/-- `sorted({t for t in re.split(r"\s+", flags) if t in keep})`, comma-joined
(`""` when no flag is kept). -/
def isaSubset (keep : List String) (flags : String) : String :=
  let present := sortStrings (((reSplitWS flags).filter (· ∈ keep)).dedup)
  String.intercalate "," present

/-- The parsed CPU identity: vendor, signature, retained ISA subset. -/
structure CpuId where
  vendor : String
  sig : String
  isa : String
  deriving Repr, DecidableEq

/-- `parse_cpuinfo()`: parse the first processor block (stop at the first
blank line); try the x86 field set first, then the ARM one. -/
def parse_cpuinfo (w : World) : Option CpuId :=
  let txt := read_all w.cpuinfo
  if txt = "" then none
  else
    let raw := ((splitLinesStr txt).takeWhile
      (fun l => stripWS l ≠ "")).foldl cpuLineUpdate {}
    if raw.vendor ≠ "" && raw.family ≠ "" && raw.model ≠ "" && raw.stepping ≠ "" then
      some ⟨raw.vendor, raw.family ++ "-" ++ raw.model ++ "-" ++ raw.stepping,
            isaSubset keepFlagsX86 raw.flags⟩
    else if raw.impl ≠ "" && raw.arch ≠ "" && raw.variant ≠ "" && raw.part ≠ ""
        && raw.rev ≠ "" then
      some ⟨raw.impl,
            raw.arch ++ "-" ++ raw.variant ++ "-" ++ raw.part ++ "-" ++ raw.rev,
            isaSubset keepFlagsARM raw.flags⟩
    else none

/-! ### Accelerator / storage collectors -/

/-- A character of the `[A-Za-z0-9\-]` class after lower-casing. -/
def isUuidBodyChar (c : Char) : Bool :=
  ('a' ≤ c && c ≤ 'z') || ('0' ≤ c && c ≤ '9') || c = '-'

/-- Match `UUID:\s*(GPU-[A-Za-z0-9\-]+)` at the head of an already
lower-cased line, returning the captured group. -/
def matchUuidAt (cs : List Char) : Option String :=
  if charsHasPrefix "uuid:".toList cs then
    let rest := (cs.drop 5).dropWhile isWSChar
    if charsHasPrefix "gpu-".toList rest then
      let body := (rest.drop 4).takeWhile isUuidBodyChar
      if body.isEmpty then none else some (String.mk ("gpu-".toList ++ body))
    else none
  else none

/-- `_UUID_RE.search`: leftmost match of the UUID pattern. -/
def searchUuid : List Char → Option String
  | [] => none
  | c :: cs =>
    match matchUuidAt (c :: cs) with
    | some u => some u
    | none => searchUuid cs

/-- UUIDs harvested from one `information` file: for each line whose
stripped, lower-cased form contains `gpu uuid:`, the suffix starting at the
first `gpu-`. -/
def uuidsOfInfoFile (txt : String) : List String :=
  (splitLinesStr txt).foldl
    (fun acc line =>
      let l := lowerStr (stripWS line)
      if containsSubstrB l "gpu uuid:" then
        match charsFindIdx "gpu-".toList l.toList with
        | some p => acc ++ [String.mk (l.toList.drop p)]
        | none => acc
      else acc) []

/-- The UUID accumulation of `collect_gpu_uuids()` before deduplication:
driver directory first (subdirectories in sorted order, unreadable
`information` files skipped); if that yields nothing, the
`nvidia-smi -L` output. -/
def gpuRawUuids (w : World) : List String :=
  let fromDir :=
    match w.nvidia_dir with
    | none => []
    | some entries =>
      (entries.insertionSort (fun a b => strLe a.name b.name = true)).foldl
        (fun acc e =>
          match e.information with
          | none => acc
          | some txt => acc ++ uuidsOfInfoFile txt) []
  if fromDir.isEmpty then
    match w.nvidia_smi with
    | none => []
    | some out =>
      (splitLinesStr out).foldl
        (fun acc line =>
          match searchUuid (lowerStr line).toList with
          | some u => acc ++ [u]
          | none => acc) []
  else fromDir

/-- `collect_gpu_uuids()`: the harvested UUIDs, deduplicated and sorted
(`sorted(sorted(set(uuids)))`). -/
def collect_gpu_uuids (w : World) : List String :=
  sortStrings (sortStrings (gpuRawUuids w).dedup)

/-- `read_emmc_cid()`: CID of the lexicographically first non-removable
`mmcblk*` device, lower-cased with whitespace removed; `""` when none. -/
def read_emmc_cid (w : World) : String :=
  match w.sys_block with
  | none => ""
  | some devs =>
    let cids := devs.foldl
      (fun acc e =>
        if !charsHasPrefix "mmcblk".toList e.name.toList then acc
        else
          match e.removable with
          | none => acc
          | some rem =>
            if stripWS rem = "1" then acc
            else
              match e.cid with
              | none => acc
              | some c =>
                let cid := removeWS (lowerStr (stripWS c))
                if cid ≠ "" then acc ++ [cid] else acc) []
    match sortStrings cids with
    | [] => ""
    | c :: _ => c

/-- `read_board_name()`: the DMI board name via `read_first_line`, falling
back to the literal `wsl` under WSL. -/
def read_board_name (w : World) : String :=
  let s := read_first_line w.board_name
  if s ≠ "" then s
  else if is_wsl w then "wsl"
  else ""

/-! ### Canonicalizer (`calc_components`) -/

/-- A fatal exit: the stderr message and the process exit code. -/
structure Fatal where
  msg : String
  code : Nat
  deriving Repr, DecidableEq

instance decEqExcept {ε α : Type} [DecidableEq ε] [DecidableEq α] :
    DecidableEq (Except ε α) := fun a b =>
  match a, b with
  | .ok x, .ok y =>
    if h : x = y then .isTrue (congrArg Except.ok h)
    else .isFalse (fun hh => h (Except.ok.inj hh))
  | .error x, .error y =>
    if h : x = y then .isTrue (congrArg Except.error h)
    else .isFalse (fun hh => h (Except.error.inj hh))
  | .ok _, .error _ => .isFalse (fun hh => Except.noConfusion hh)
  | .error _, .ok _ => .isFalse (fun hh => Except.noConfusion hh)

def msgMissingBoard : String :=
  "ERROR: missing DMI board_name (/sys/class/dmi/id/board_name)"

def msgMissingCpu : String := "ERROR: missing or unparsable /proc/cpuinfo"

def msgMissingGpu : String :=
  "ERROR: no NVIDIA GPU UUID found (need at least one GPU, and non-Tegra platforms must expose a UUID)"

def msgMissingCid : String :=
  "ERROR: Tegra platform detected but eMMC CID not readable"

/-- The CPU-derived tokens appended by `calc_components`: `cpuv:`, `cpus:`,
and `cpui:` only when the ISA subset is non-empty. -/
def cpuTokens (ci : CpuId) : List String :=
  ["cpuv:" ++ ci.vendor, "cpus:" ++ ci.sig]
    ++ (if ci.isa ≠ "" then ["cpui:" ++ ci.isa] else [])

/-- `calc_components()`: build the labeled token list; board, CPU and
accelerator/storage identity are all mandatory (exit code 3 on any missing
one); the final list is sorted. -/
def calc_components (w : World) : Except Fatal (List String) :=
  let bn := read_board_name w
  if bn = "" then .error ⟨msgMissingBoard, 3⟩
  else
    match parse_cpuinfo w with
    | none => .error ⟨msgMissingCpu, 3⟩
    | some ci =>
      let parts := ["brd:" ++ bn] ++ cpuTokens ci
      let uuids := collect_gpu_uuids w
      if uuids.isEmpty then
        if !is_tegra w then .error ⟨msgMissingGpu, 3⟩
        else
          let cid := read_emmc_cid w
          if cid = "" then .error ⟨msgMissingCid, 3⟩
          else .ok (sortStrings (parts ++ ["gpu:" ++ cid]))
      else .ok (sortStrings (parts ++ ["gpu:" ++ String.intercalate ";" uuids]))

/-! ### SHA-256 (`hashlib.sha256(...).hexdigest()`), over `Nat` words -/

def w32 : Nat := 2 ^ 32

def mask32 : Nat := w32 - 1

/-- Rotate a 32-bit word right by `n` (for `x < 2^32`, `0 < n < 32`). -/
def rotr32 (n x : Nat) : Nat :=
  (x / 2 ^ n + x % 2 ^ n * 2 ^ (32 - n)) % w32

def shr32 (n x : Nat) : Nat := x / 2 ^ n

def chFn (e f g : Nat) : Nat := (e &&& f) ^^^ ((e ^^^ mask32) &&& g)

def majFn (a b c : Nat) : Nat := (a &&& b) ^^^ (a &&& c) ^^^ (b &&& c)

def bigSigma0 (x : Nat) : Nat := rotr32 2 x ^^^ rotr32 13 x ^^^ rotr32 22 x

def bigSigma1 (x : Nat) : Nat := rotr32 6 x ^^^ rotr32 11 x ^^^ rotr32 25 x

def smallSigma0 (x : Nat) : Nat := rotr32 7 x ^^^ rotr32 18 x ^^^ shr32 3 x

def smallSigma1 (x : Nat) : Nat := rotr32 17 x ^^^ rotr32 19 x ^^^ shr32 10 x

/-- The 64 SHA-256 round constants, in decimal. -/
def shaK : List Nat :=
  [1116352408, 1899447441, 3049323471, 3921009573, 961987163,
   1508970993, 2453635748, 2870763221, 3624381080, 310598401,
   607225278, 1426881987, 1925078388, 2162078206, 2614888103,
   3248222580, 3835390401, 4022224774, 264347078, 604807628,
   770255983, 1249150122, 1555081692, 1996064986, 2554220882,
   2821834349, 2952996808, 3210313671, 3336571891, 3584528711,
   113926993, 338241895, 666307205, 773529912, 1294757372,
   1396182291, 1695183700, 1986661051, 2177026350, 2456956037,
   2730485921, 2820302411, 3259730800, 3345764771, 3516065817,
   3600352804, 4094571909, 275423344, 430227734, 506948616,
   659060556, 883997877, 958139571, 1322822218, 1537002063,
   1747873779, 1955562222, 2024104815, 2227730452, 2361852424,
   2428436474, 2756734187, 3204031479, 3329325298]

/-- The initial SHA-256 hash state, in decimal. -/
def shaH0 : List Nat :=
  [1779033703, 3144134277, 1013904242, 2773480762,
   1359893119, 2600822924, 528734635, 1541459225]

/-- Big-endian 8-byte encoding of `n`. -/
def be64 (n : Nat) : List Nat :=
  (List.range 8).map (fun i => n / 2 ^ (8 * (7 - i)) % 256)

/-- SHA-256 padding: `0x80`, zeros to 56 mod 64, 8-byte bit length. -/
def sha256pad (msg : List Nat) : List Nat :=
  msg ++ [0x80] ++ List.replicate ((119 - msg.length % 64) % 64) 0
    ++ be64 (8 * msg.length)

/-- Big-endian 32-bit words from a byte list (length a multiple of 4). -/
def bytesToWords : List Nat → List Nat
  | b0 :: b1 :: b2 :: b3 :: rest =>
    (((b0 * 256 + b1) * 256 + b2) * 256 + b3) :: bytesToWords rest
  | _ => []

/-- Chop a word list into 16-word blocks. -/
def toBlocks (ws : List Nat) : List (List Nat) :=
  match ws with
  | [] => []
  | a :: rest => ((a :: rest).take 16) :: toBlocks ((a :: rest).drop 16)
termination_by ws.length
decreasing_by simp [List.length_drop]; omega

/-- Extend a 16-word block to the 64-word message schedule. -/
def extendSchedule (ws : List Nat) : List Nat :=
  (List.range 48).foldl
    (fun acc _ =>
      let n := acc.length
      acc ++ [(smallSigma1 (acc.getD (n - 2) 0) + acc.getD (n - 7) 0
               + smallSigma0 (acc.getD (n - 15) 0) + acc.getD (n - 16) 0) % w32])
    ws

/-- One compression round on the 8-word working state. -/
def compressRound (st : List Nat) (kw : Nat × Nat) : List Nat :=
  match st with
  | [a, b, c, d, e, f, g, h] =>
    let t1 := (h + bigSigma1 e + chFn e f g + kw.1 + kw.2) % w32
    let t2 := (bigSigma0 a + majFn a b c) % w32
    [(t1 + t2) % w32, a, b, c, (d + t1) % w32, e, f, g]
  | _ => st

/-- Process one block: 64 rounds, then add into the hash state. -/
def processBlock (hs e1 : List Nat) : List Nat :=
  let ws := extendSchedule e1
  let st := (shaK.zip ws).foldl compressRound hs
  List.zipWith (fun x y => (x + y) % w32) hs st

/-- SHA-256 over a byte list, as eight 32-bit words. -/
def sha256words (msg : List Nat) : List Nat :=
  (toBlocks (bytesToWords (sha256pad msg))).foldl processBlock shaH0

def hexDigitChars : List Char := "0123456789abcdef".toList

/-- Lower-case hex of a 32-bit word, 8 digits. -/
def toHex8 (x : Nat) : List Char :=
  (List.range 8).map (fun i => hexDigitChars.getD (x / 2 ^ (4 * (7 - i)) % 16) '0')

/-- UTF-8 encoding of one code point. -/
def utf8EncodeChar (n : Nat) : List Nat :=
  if n < 0x80 then [n]
  else if n < 0x800 then [0xc0 + n / 64, 0x80 + n % 64]
  else if n < 0x10000 then
    [0xe0 + n / 4096, 0x80 + n / 64 % 64, 0x80 + n % 64]
  else
    [0xf0 + n / 262144, 0x80 + n / 4096 % 64, 0x80 + n / 64 % 64, 0x80 + n % 64]

/-- Python `s.encode("utf-8")`. -/
def utf8Encode (s : String) : List Nat :=
  (s.toList.map (fun c => utf8EncodeChar c.toNat)).flatten

/-- `hashlib.sha256(s.encode("utf-8")).hexdigest()`. -/
def sha256hexdigest (s : String) : String :=
  String.mk (((sha256words (utf8Encode s)).map toHex8).flatten)

/-! ### Request builder (`main`) -/

/-- The parsed command-line arguments (`--out` is `""` when omitted). -/
structure Args where
  out : String
  features : List String
  customer : String
  deriving Repr, DecidableEq

/-- Ambient process facts used only for the descriptive `env` object. -/
structure Env where
  timestamp : Nat
  uname_sysname : String
  uname_release : String
  dockerenv : Bool
  deriving Repr, DecidableEq

/-- The license request record written as JSON. -/
structure Record where
  version : Nat
  timestamp : Nat
  customer : String
  features : List String
  hwid_components : List String
  hwid_sha256 : String
  env_uname : String
  env_in_docker_hint : Bool
  env_gpu_count : Nat
  deriving Repr, DecidableEq

/-- `main()`: canonicalize, hash, choose the output name, build the record.
On a fatal collection error the process exits before any file is written, so
the error branch carries no output name and no record; on success the exit
code is 0. -/
def main (w : World) (a : Args) (e : Env) : Except Fatal (String × Record) :=
  match calc_components w with
  | .error f => .error f
  | .ok parts =>
  let hwid := sha256hexdigest (String.intercalate "\n" parts)
  let outname :=
    if a.out = "" then "license_request-" ++ hwid.take 12 ++ ".json" else a.out
  .ok (outname,
    { version := 1
      timestamp := e.timestamp
      customer := a.customer
      features := sortStrings a.features
      hwid_components := parts
      hwid_sha256 := hwid
      env_uname := e.uname_sysname ++ " " ++ e.uname_release
      env_in_docker_hint := e.dockerenv
      env_gpu_count := (collect_gpu_uuids w).length })

/-- The canonicalization pipeline of the script: the tokens the collectors
appended, in whatever order, are sorted (`parts.sort()` in
`calc_components`) and the newline-join is hashed (`main`). -/
def canonicalHwid (tokens : List String) : String :=
  sha256hexdigest (String.intercalate "\n" (sortStrings tokens))

/-- `lab` is a prefix of token `t` (used to speak about `label:` tokens). -/
def hasLabel (lab t : String) : Bool :=
  charsHasPrefix lab.toList t.toList

/-! ### Machine/OS identity collector (alternate profile) -/

/-- The system inputs of the alternate profile. -/
structure AltWorld where
  machine_id : Option String
  product_uuid : Option String
  board_serial : Option String
  /-- active mount table rows: (device, mount point) -/
  mounts : List (String × String)
  /-- UUID-keyed symlink directory: (entry name, link target) -/
  uuid_links : List (String × String)
  deriving Repr, DecidableEq

/-- Final path component of a path or link target. -/
def baseName (p : String) : String :=
  String.mk ((p.toList.reverse.takeWhile (fun c => c ≠ '/')).reverse)

/-- Modelled from the spec: the machine/OS identity profile of section 4.4
is not part of `src/`. Resolution of the root filesystem UUID: read the
active mount table, find the device mounted at `/`, then reverse-match that
device node against the symbolic links of a UUID-keyed directory. -/
def resolveRootFsUuid (aw : AltWorld) : Option String :=
  match aw.mounts.find? (fun m => m.2 = "/") with
  | none => none
  | some m =>
    (aw.uuid_links.find? (fun e => baseName e.2 = baseName m.1)).map (fun e => e.1)

/-- Modelled from the spec: the alternate profile composes up to four
independently optional facets (machine-id, DMI product UUID, DMI board
serial, root filesystem UUID) into normalized `label:value` tokens; the
spec's label set offers a single `dmi` label for the two DMI facets, so the
product UUID is taken and the board serial stands in when it is absent. -/
def altComponents (aw : AltWorld) : List String :=
  let norm := fun (s : String) => removeWS (lowerStr (stripWS s))
  let tok := fun (lab : String) (o : Option String) =>
    match o with
    | none => []
    | some s => if norm s = "" then [] else [lab ++ norm s]
  tok "mid:" aw.machine_id
    ++ tok "dmi:" (aw.product_uuid.or aw.board_serial)
    ++ (match resolveRootFsUuid aw with
        | none => []
        | some u => ["fs:" ++ u])

/-- Modelled from the spec: the alternate profile has no mandatory fields —
any subset of present facets, including none, is accepted, so the collection
step never exits fatally. -/
def altCalc (aw : AltWorld) : Except Fatal (List String) :=
  .ok (sortStrings (altComponents aw))

/-! ### Sample inputs used by the concrete witnesses -/

def cpuTextX86 : String :=
  "processor\t: 0\nvendor_id\t: GenuineIntel\ncpu family\t: 6\nmodel\t\t: 158\nmodel name\t: Core i7\nstepping\t: 10\nflags\t\t: fpu sse2 avx2 ssse3\n\nprocessor\t: 1\nstepping\t: 13\n"

def cpuTextNoIsa : String :=
  "vendor_id\t: GenuineIntel\ncpu family\t: 6\nmodel\t\t: 158\nstepping\t: 10\nflags\t\t: fpu mmx ssse3\n"

def wGpuSample : World :=
  { board_name := some "ASUS PRIME Z390\n"
    wsl_env := false
    osrelease := some "5.15.0-generic\n"
    cpuinfo := some cpuTextX86
    devtree_compat := none
    nvidia_dir := some [⟨"0000:01:00.0", some "Model: RTX\nGPU UUID: GPU-995c63b7\nVideo BIOS: 1\n"⟩]
    nvidia_smi := none
    sys_block := none }

def wTegraSample : World :=
  { wGpuSample with
    nvidia_dir := none
    devtree_compat := some "nvidia,p3737-0000nvidia,tegra234"
    sys_block := some [⟨"mmcblk0", some "0\n", some " 90014A6833 \n"⟩] }

def wNoBoardSample : World := { wGpuSample with board_name := none }

def wNoCpuSample : World := { wGpuSample with cpuinfo := none }

def wNoGpuSample : World := { wGpuSample with nvidia_dir := none }

def wNoCidSample : World := { wTegraSample with sys_block := none }

def wNoIsaSample : World := { wGpuSample with cpuinfo := some cpuTextNoIsa }

def wWslSample : World :=
  { wGpuSample with board_name := some "\n", wsl_env := true }

def wBoardCESample : World := { wGpuSample with board_name := some "My Board" }

/-- A first-processor-block template with complete x86 fields
(family 6, model 158, stepping 10), a flags line carrying `sse2 avx2 ssse3`,
and a second block (different stepping) after the blank line. -/
def cpuinfoLines (v : String) : List String :=
  ["processor\t: 0",
   "vendor_id\t: " ++ v,
   "cpu family\t: 6",
   "model\t\t: 158",
   "model name\t: Core i7",
   "stepping\t: 10",
   "flags\t\t: fpu sse2 avx2 ssse3",
   "",
   "processor\t: 1",
   "stepping\t: 13",
   ""]

/-- Join lines with `'\n'` (the template's file content; a trailing empty
line yields the file's final newline). -/
def joinNL : List String → String
  | [] => ""
  | [x] => x
  | x :: y :: r => x ++ "\n" ++ joinNL (y :: r)

def cpuinfoX86 (v : String) : String :=
  joinNL (cpuinfoLines v)

def wC5Sample : World :=
  { wGpuSample with cpuinfo := some (cpuinfoX86 "genuineintel") }

/-- Whitespace collapsing in the claim's reading of the spec: every maximal
whitespace run reduced to a single space (`re.sub(r"\s+", " ", s)`), not
deleted. -/
def collapseWS (s : String) : String :=
  String.mk (s.toList.foldr
    (fun c acc =>
      if isWSChar c then (if acc.head? = some ' ' then acc else ' ' :: acc)
      else c :: acc) [])

def argsSample : Args := ⟨"", ["AutoDrive"], ""⟩

def argsOutSample : Args := ⟨"req.json", ["AutoDrive"], ""⟩

def envSample : Env := ⟨1700000000, "Linux", "5.15.0", false⟩

/-! ## Helper lemmas -/

theorem charListLe_total : ∀ xs ys : List Char,
    charListLe xs ys = true ∨ charListLe ys xs = true := by
  intro xs
  induction xs with
  | nil => intro ys; left; rfl
  | cons a as ih =>
    intro ys
    cases ys with
    | nil => right; rfl
    | cons b bs =>
      rcases lt_trichotomy a b with h | h | h
      · left; simp [charListLe, h]
      · subst h
        rcases ih bs with h2 | h2
        · left; simpa [charListLe, lt_self_iff_false] using h2
        · right; simpa [charListLe, lt_self_iff_false] using h2
      · right; simp [charListLe, h]

theorem charListLe_trans : ∀ xs ys zs : List Char,
    charListLe xs ys = true → charListLe ys zs = true →
    charListLe xs zs = true := by
  intro xs
  induction xs with
  | nil => intro ys zs h1 h2; rfl
  | cons a as ih =>
    intro ys zs h1 h2
    cases ys with
    | nil => simp [charListLe] at h1
    | cons b bs =>
      cases zs with
      | nil => simp [charListLe] at h2
      | cons c cs =>
        rcases lt_trichotomy a b with hab | hab | hab
        · rcases lt_trichotomy b c with hbc | hbc | hbc
          · simp [charListLe, lt_trans hab hbc]
          · subst hbc; simp [charListLe, hab]
          · simp [charListLe, asymm hbc, hbc] at h2
        · subst hab
          rcases lt_trichotomy a c with hac | hac | hac
          · simp [charListLe, hac]
          · subst hac
            simp [charListLe, lt_self_iff_false] at h1 h2 ⊢
            exact ih bs cs h1 h2
          · simp [charListLe, asymm hac, hac] at h2
        · simp [charListLe, asymm hab, hab] at h1

theorem charListLe_antisymm : ∀ xs ys : List Char,
    charListLe xs ys = true → charListLe ys xs = true → xs = ys := by
  intro xs
  induction xs with
  | nil =>
    intro ys h1 h2
    cases ys with
    | nil => rfl
    | cons b bs => simp [charListLe] at h2
  | cons a as ih =>
    intro ys h1 h2
    cases ys with
    | nil => simp [charListLe] at h1
    | cons b bs =>
      rcases lt_trichotomy a b with hab | hab | hab
      · simp [charListLe, hab, asymm hab] at h2
      · subst hab
        simp [charListLe, lt_self_iff_false] at h1 h2
        rw [ih bs h1 h2]
      · simp [charListLe, hab, asymm hab] at h1

theorem strLe_total (a b : String) : strLe a b = true ∨ strLe b a = true :=
  charListLe_total _ _

theorem strLe_trans {a b c : String} (h1 : strLe a b = true)
    (h2 : strLe b c = true) : strLe a c = true :=
  charListLe_trans _ _ _ h1 h2

theorem strLe_antisymm {a b : String} (h1 : strLe a b = true)
    (h2 : strLe b a = true) : a = b :=
  String.ext (charListLe_antisymm a.toList b.toList h1 h2)

theorem sortStrings_perm (l : List String) : (sortStrings l).Perm l :=
  List.perm_insertionSort _ l

theorem sortStrings_sorted (l : List String) :
    List.Sorted (fun a b => strLe a b = true) (sortStrings l) := by
  haveI : IsTotal String (fun a b => strLe a b = true) := ⟨strLe_total⟩
  haveI : IsTrans String (fun a b => strLe a b = true) :=
    ⟨fun _ _ _ => strLe_trans⟩
  exact List.sorted_insertionSort _ l

theorem sortStrings_eq_of_perm {l₁ l₂ : List String} (h : l₁.Perm l₂) :
    sortStrings l₁ = sortStrings l₂ := by
  haveI : IsAntisymm String (fun a b => strLe a b = true) :=
    ⟨fun _ _ => strLe_antisymm⟩
  exact List.eq_of_perm_of_sorted
    ((sortStrings_perm l₁).trans (h.trans (sortStrings_perm l₂).symm))
    (sortStrings_sorted l₁) (sortStrings_sorted l₂)

theorem mem_sortStrings {a : String} {l : List String} :
    a ∈ sortStrings l ↔ a ∈ l :=
  (sortStrings_perm l).mem_iff

/-- Every fatal error of `calc_components` carries exit code 3. -/
theorem calc_error_code {w : World} {f : Fatal} (h : calc_components w = .error f) :
    f.code = 3 := by
  by_cases hb : read_board_name w = ""
  · simp [calc_components, hb] at h
    simp [← h]
  · cases hp : parse_cpuinfo w with
    | none =>
      simp [calc_components, hb, hp] at h
      simp [← h]
    | some ci =>
      cases hu : collect_gpu_uuids w with
      | nil =>
        by_cases ht : is_tegra w
        · by_cases hcid : read_emmc_cid w = ""
          · simp [calc_components, hb, hp, hu, ht, hcid] at h
            simp [← h]
          · simp [calc_components, hb, hp, hu, ht, hcid] at h
        · simp [calc_components, hb, hp, hu, ht] at h
          simp [← h]
      | cons u us =>
        simp [calc_components, hb, hp, hu] at h

/-- A run succeeds exactly when the canonicalizer does. -/
theorem main_ok_iff {w : World} {a : Args} {e : Env} :
    (∃ r, main w a e = .ok r) ↔ (∃ parts, calc_components w = .ok parts) := by
  cases h : calc_components w <;> simp [main, h]

theorem hasLabel_gpu_brd (s : String) : hasLabel "gpu:" ("brd:" ++ s) = false := rfl

theorem hasLabel_gpu_cpuv (s : String) : hasLabel "gpu:" ("cpuv:" ++ s) = false := rfl

theorem hasLabel_gpu_cpus (s : String) : hasLabel "gpu:" ("cpus:" ++ s) = false := rfl

theorem hasLabel_gpu_cpui (s : String) : hasLabel "gpu:" ("cpui:" ++ s) = false := rfl

theorem hasLabel_gpu_gpu (s : String) : hasLabel "gpu:" ("gpu:" ++ s) = true := rfl

theorem hasLabel_cpui_brd (s : String) : hasLabel "cpui:" ("brd:" ++ s) = false := rfl

theorem hasLabel_cpui_cpuv (s : String) : hasLabel "cpui:" ("cpuv:" ++ s) = false := rfl

theorem hasLabel_cpui_cpus (s : String) : hasLabel "cpui:" ("cpus:" ++ s) = false := rfl

theorem hasLabel_cpui_gpu (s : String) : hasLabel "cpui:" ("gpu:" ++ s) = false := rfl

/-- From a successful canonicalization, the board facet is present and the
CPU facet parsed. -/
theorem calc_ok_facets {w : World} {parts : List String}
    (h : calc_components w = .ok parts) :
    read_board_name w ≠ "" ∧ ∃ ci, parse_cpuinfo w = some ci := by
  by_cases hb : read_board_name w = ""
  · simp [calc_components, hb] at h
  · refine ⟨hb, ?_⟩
    cases hp : parse_cpuinfo w with
    | none => simp [calc_components, hb, hp] at h
    | some ci => exact ⟨ci, rfl⟩

theorem filter_not_dropWhile (p : Char → Bool) (l : List Char) :
    (l.dropWhile p).filter (fun c => !p c) = l.filter (fun c => !p c) := by
  induction l with
  | nil => rfl
  | cons c cs ih =>
    by_cases h : p c
    · simp [List.dropWhile_cons, h, List.filter_cons, ih]
    · simp [List.dropWhile_cons, h, List.filter_cons]

theorem removeWS_stripWS (s : String) : removeWS (stripWS s) = removeWS s := by
  show String.mk _ = String.mk _
  congr 1
  show (((s.toList.dropWhile isWSChar).reverse.dropWhile isWSChar).reverse).filter
      (fun c => !isWSChar c) = _
  rw [List.filter_reverse, filter_not_dropWhile, List.filter_reverse,
    List.reverse_reverse, filter_not_dropWhile]

theorem splitNL_append_cons (l rest : List Char) (h : ∀ c ∈ l, c ≠ '\n') :
    splitNL (l ++ '\n' :: rest) = l :: splitNL rest := by
  induction l with
  | nil => simp [splitNL]
  | cons c cs ih =>
    have hc : c ≠ '\n' := h c (List.mem_cons_self c cs)
    have ih2 := ih (fun x hx => h x (List.mem_cons_of_mem c hx))
    simp [splitNL, hc, ih2]

theorem splitNL_no_nl (l : List Char) (h : ∀ c ∈ l, c ≠ '\n') :
    splitNL l = [l] := by
  induction l with
  | nil => rfl
  | cons c cs ih =>
    have hc : c ≠ '\n' := h c (List.mem_cons_self c cs)
    have ih2 := ih (fun x hx => h x (List.mem_cons_of_mem c hx))
    simp [splitNL, hc, ih2]

theorem joinNL_toList_cons (x y : String) (r : List String) :
    (joinNL (x :: y :: r)).toList = x.toList ++ '\n' :: (joinNL (y :: r)).toList := by
  show (x ++ "\n" ++ joinNL (y :: r)).data = x.data ++ '\n' :: (joinNL (y :: r)).data
  rw [String.data_append, String.data_append]
  simp

theorem splitNL_joinNL (ls : List String) (hne : ls ≠ [])
    (h : ∀ l ∈ ls, ∀ c ∈ l.toList, c ≠ '\n') :
    splitNL (joinNL ls).toList = ls.map String.toList := by
  induction ls with
  | nil => exact absurd rfl hne
  | cons x xs ih =>
    cases xs with
    | nil =>
      show splitNL x.toList = [x.toList]
      exact splitNL_no_nl _ (h x (List.mem_cons_self x []))
    | cons y ys =>
      rw [joinNL_toList_cons,
        splitNL_append_cons _ _ (h x (List.mem_cons_self x (y :: ys))),
        ih (by simp) (fun l hl => h l (List.mem_cons_of_mem x hl))]
      rfl

theorem splitLinesStr_joinNL (ls : List String)
    (h : ∀ l ∈ ls, ∀ c ∈ l.toList, c ≠ '\n') :
    splitLinesStr (joinNL (ls ++ [""])) = ls := by
  have h2 : ∀ l ∈ ls ++ [""], ∀ c ∈ l.toList, c ≠ '\n' := by
    intro l hl
    rcases List.mem_append.mp hl with h1 | h1
    · exact h l h1
    · simp at h1
      subst h1
      intro c hc
      simp [String.toList] at hc
  have hsplit := splitNL_joinNL (ls ++ [""]) (by simp) h2
  simp only [splitLinesStr, hsplit, List.map_append, List.map_cons, List.map_nil]
  rw [show ("" : String).toList = [] from rfl, List.getLast?_concat]
  simp only [if_pos, List.dropLast_concat, List.map_map]
  rw [show (String.mk ∘ String.toList) = id from funext (fun s => rfl), List.map_id]

theorem dropWhile_all_false (p : Char → Bool) (l : List Char)
    (h : ∀ c ∈ l, p c = false) : l.dropWhile p = l := by
  cases l with
  | nil => rfl
  | cons c cs => simp [List.dropWhile_cons, h c (List.mem_cons_self c cs)]

theorem stripWS_eq_self {s : String} (h : ∀ c ∈ s.toList, isWSChar c = false) :
    stripWS s = s := by
  show String.mk _ = s
  rw [dropWhile_all_false _ _ h,
    dropWhile_all_false _ _ (fun c hc => h c (List.mem_reverse.mp hc)),
    List.reverse_reverse]
  rfl

theorem removeWS_eq_self {s : String} (h : ∀ c ∈ s.toList, isWSChar c = false) :
    removeWS s = s := by
  show String.mk _ = s
  rw [List.filter_eq_self.mpr (fun c hc => by simp [h c hc])]
  rfl

theorem lowerStr_eq_self {s : String} (h : ∀ c ∈ s.toList, Char.toLower c = c) :
    lowerStr s = s := by
  show String.mk _ = s
  have : s.toList.map Char.toLower = s.toList.map (fun a => a) :=
    List.map_congr_left h
  rw [this, List.map_id']
  rfl

theorem lowercase_char_props {c : Char} (h1 : 'a' ≤ c) (h2 : c ≤ 'z') :
    isWSChar c = false ∧ c ≠ '\n' ∧ Char.toLower c = c := by
  have hn : 97 ≤ c.toNat := h1
  refine ⟨?_, ?_, ?_⟩
  · simp only [isWSChar, Bool.or_eq_false_iff, decide_eq_false_iff_not]
    repeat' apply And.intro
    all_goals (intro heq; subst heq; revert hn; decide)
  · intro heq
    subst heq
    revert hn
    decide
  · simp [Char.toLower, show ¬(c.toNat ≥ 65 ∧ c.toNat ≤ 90) from by omega]

theorem norm_lowercase {v : String} (hv : ∀ c ∈ v.toList, 'a' ≤ c ∧ c ≤ 'z') :
    stripWS v = v ∧ removeWS v = v ∧ lowerStr v = v := by
  have hws : ∀ c ∈ v.toList, isWSChar c = false :=
    fun c hc => (lowercase_char_props (hv c hc).1 (hv c hc).2).1
  have hlow : ∀ c ∈ v.toList, Char.toLower c = c :=
    fun c hc => (lowercase_char_props (hv c hc).1 (hv c hc).2).2.2
  exact ⟨stripWS_eq_self hws, removeWS_eq_self hws, lowerStr_eq_self hlow⟩

theorem stripWS_ne_empty {s : String} {c : Char} {cs : List Char}
    (h : s.toList = c :: cs) (hc : isWSChar c = false) : stripWS s ≠ "" := by
  intro he
  have h1 : removeWS (stripWS s) = removeWS s := removeWS_stripWS s
  rw [he] at h1
  have h2 : removeWS s ≠ "" := by
    show String.mk (s.toList.filter _) ≠ ""
    rw [h]
    intro hx
    have := congrArg String.toList hx
    simp [List.filter_cons, hc, String.toList] at this
  exact h2 h1.symm

theorem cpuLineUpdate_processor0 (st : CpuRaw) :
    cpuLineUpdate st "processor\t: 0" = st := rfl

theorem cpuLineUpdate_vendor (st : CpuRaw) (v : String) :
    cpuLineUpdate st ("vendor_id\t: " ++ v)
      = { st with vendor :=
            removeWS (lowerStr (stripWS (String.mk (' ' :: v.toList)))) } := rfl

theorem cpuLineUpdate_family (st : CpuRaw) :
    cpuLineUpdate st "cpu family\t: 6" = { st with family := "6" } := rfl

theorem cpuLineUpdate_model (st : CpuRaw) :
    cpuLineUpdate st "model\t\t: 158" = { st with model := "158" } := rfl

theorem cpuLineUpdate_modelname (st : CpuRaw) :
    cpuLineUpdate st "model name\t: Core i7" = st := rfl

theorem cpuLineUpdate_stepping (st : CpuRaw) :
    cpuLineUpdate st "stepping\t: 10" = { st with stepping := "10" } := rfl

theorem cpuLineUpdate_flags (st : CpuRaw) :
    cpuLineUpdate st "flags\t\t: fpu sse2 avx2 ssse3"
      = { st with flags := "fpu sse2 avx2 ssse3" } := rfl

theorem toHex8_length (x : Nat) : (toHex8 x).length = 8 := by
  simp [toHex8]

theorem compressRound_length (st : List Nat) (kw : Nat × Nat)
    (h : st.length = 8) : (compressRound st kw).length = 8 := by
  unfold compressRound
  split
  · rfl
  · exact h

theorem foldl_compressRound_length (l : List (Nat × Nat)) (hs : List Nat)
    (h : hs.length = 8) : (l.foldl compressRound hs).length = 8 := by
  induction l generalizing hs with
  | nil => exact h
  | cons kw l ih => exact ih _ (compressRound_length hs kw h)

theorem processBlock_length (hs b : List Nat) (h : hs.length = 8) :
    (processBlock hs b).length = 8 := by
  unfold processBlock
  rw [List.length_zipWith, h, foldl_compressRound_length _ _ h]
  exact min_self 8

theorem foldl_processBlock_length (bs : List (List Nat)) (hs : List Nat)
    (h : hs.length = 8) : (bs.foldl processBlock hs).length = 8 := by
  induction bs generalizing hs with
  | nil => exact h
  | cons b bs ih => exact ih _ (processBlock_length _ _ h)

theorem sha256words_length (msg : List Nat) : (sha256words msg).length = 8 :=
  foldl_processBlock_length _ _ rfl

theorem flatten_map_toHex8_length (L : List Nat) :
    ((L.map toHex8).flatten).length = 8 * L.length := by
  induction L with
  | nil => rfl
  | cons x xs ih =>
    simp only [List.map_cons, List.flatten_cons, List.length_append,
      toHex8_length, ih, List.length_cons]
    omega

theorem sha256hexdigest_length (s : String) :
    (sha256hexdigest s).length = 64 := by
  show (((sha256words (utf8Encode s)).map toHex8).flatten).length = 64
  rw [flatten_map_toHex8_length, sha256words_length]

theorem hex_getD_mem (n : Nat) : hexDigitChars.getD n '0' ∈ hexDigitChars := by
  by_cases h : n < hexDigitChars.length
  · rw [List.getD_eq_getElem _ _ h]
    exact List.getElem_mem h
  · rw [List.getD_eq_default _ _ (Nat.le_of_not_lt h)]
    decide

theorem sha256hexdigest_chars (s : String) :
    ∀ c ∈ (sha256hexdigest s).toList, c ∈ hexDigitChars := by
  intro c hc
  replace hc : c ∈ ((sha256words (utf8Encode s)).map toHex8).flatten := hc
  rw [List.mem_flatten] at hc
  obtain ⟨piece, hp, hcp⟩ := hc
  rw [List.mem_map] at hp
  obtain ⟨x, _, hx⟩ := hp
  subst hx
  unfold toHex8 at hcp
  rw [List.mem_map] at hcp
  obtain ⟨i, _, hi⟩ := hcp
  exact hi ▸ hex_getD_mem _

/-! ## Claims -/

/-- C1: for a fixed multiset of component tokens, permuting the order in
which the collectors appended them changes neither the sorted component
list nor the SHA-256 HWID of the newline-join. -/
theorem hwid_order_invariant (l₁ l₂ : List String) (h : l₁.Perm l₂) :
    sortStrings l₁ = sortStrings l₂ ∧ canonicalHwid l₁ = canonicalHwid l₂ := by
  have e := sortStrings_eq_of_perm h
  exact ⟨e, by unfold canonicalHwid; rw [e]⟩

theorem hwid_order_invariant_witness :
    (["gpu:u1", "brd:b", "cpuv:v"].Perm ["brd:b", "cpuv:v", "gpu:u1"]) ∧
    sortStrings ["gpu:u1", "brd:b", "cpuv:v"]
      = sortStrings ["brd:b", "cpuv:v", "gpu:u1"] ∧
    canonicalHwid ["gpu:u1", "brd:b", "cpuv:v"]
      = canonicalHwid ["brd:b", "cpuv:v", "gpu:u1"] :=
  ⟨by decide,
   (hwid_order_invariant _ _ (by decide)).1,
   (hwid_order_invariant _ _ (by decide)).2⟩

/-- C2: with the underlying system files and subprocess outputs fixed, two
runs of the program — even with different CLI arguments, timestamps or
process environment — yield identical `hwid_sha256` and identical
`hwid_components`. -/
theorem run_deterministic (w : World) (a₁ a₂ : Args) (e₁ e₂ : Env) :
    (main w a₁ e₁).map (fun p => (p.2.hwid_components, p.2.hwid_sha256))
      = (main w a₂ e₂).map (fun p => (p.2.hwid_components, p.2.hwid_sha256)) := by
  cases h : calc_components w <;> simp [main, h, Except.map]

/-- C8: in the alternate machine/OS identity profile (modelled from the
spec), a mount-table row `/dev/sda1 → /` and a UUID symlink
`abcd-1234 → ../../sda1` resolve to the component token `fs:abcd-1234`;
every subset of the four optional facets, including none at all, is
accepted without a fatal error. -/
theorem altprofile_fs_and_optional :
    resolveRootFsUuid
        ⟨none, none, none, [("/dev/sda1", "/")], [("abcd-1234", "../../sda1")]⟩
      = some "abcd-1234" ∧
    altComponents
        ⟨none, none, none, [("/dev/sda1", "/")], [("abcd-1234", "../../sda1")]⟩
      = ["fs:abcd-1234"] ∧
    (∀ aw : AltWorld, ∃ parts, altCalc aw = .ok parts) ∧
    altCalc ⟨none, none, none, [], []⟩ = .ok [] :=
  ⟨by decide, by decide, fun _ => ⟨_, rfl⟩, by rfl⟩

/-- C3: when a mandatory identity facet is missing — board name (no WSL
fallback), CPU identity, or accelerator/storage identity — the run stops
with the corresponding stderr message and the reserved non-zero exit code 3
before anything is written (the error branch of the model carries no output
name and no record); with all mandatory facets present the run succeeds
(exit code 0). -/
theorem mandatory_enforcement (w : World) (a : Args) (e : Env) :
    (read_board_name w = "" → main w a e = .error ⟨msgMissingBoard, 3⟩) ∧
    (read_board_name w ≠ "" → parse_cpuinfo w = none →
      main w a e = .error ⟨msgMissingCpu, 3⟩) ∧
    (read_board_name w ≠ "" → parse_cpuinfo w ≠ none →
      collect_gpu_uuids w = [] → is_tegra w = false →
      main w a e = .error ⟨msgMissingGpu, 3⟩) ∧
    (read_board_name w ≠ "" → parse_cpuinfo w ≠ none →
      collect_gpu_uuids w = [] → is_tegra w = true → read_emmc_cid w = "" →
      main w a e = .error ⟨msgMissingCid, 3⟩) ∧
    (∀ f, main w a e = .error f → f.code = 3 ∧ f.code ≠ 0) ∧
    (read_board_name w ≠ "" → parse_cpuinfo w ≠ none →
      (collect_gpu_uuids w ≠ [] ∨ (is_tegra w = true ∧ read_emmc_cid w ≠ "")) →
      ∃ r, main w a e = .ok r) := by
  refine ⟨?_, ?_, ?_, ?_, ?_, ?_⟩
  · intro hb
    simp [main, calc_components, hb]
  · intro hb hc
    simp [main, calc_components, hb, hc]
  · intro hb hc hu ht
    obtain ⟨ci, hci⟩ := Option.ne_none_iff_exists'.mp hc
    simp [main, calc_components, hb, hci, hu, ht]
  · intro hb hc hu ht hcid
    obtain ⟨ci, hci⟩ := Option.ne_none_iff_exists'.mp hc
    simp [main, calc_components, hb, hci, hu, ht, hcid]
  · intro f hf
    have hcode : f.code = 3 := by
      cases hcalc : calc_components w with
      | error g =>
        have : g = f := by
          rw [main, hcalc] at hf
          exact (Except.error.injEq _ _).mp hf
        exact this ▸ calc_error_code hcalc
      | ok parts =>
        rw [main, hcalc] at hf
        cases hf
    exact ⟨hcode, by omega⟩
  · intro hb hc hgpu
    obtain ⟨ci, hci⟩ := Option.ne_none_iff_exists'.mp hc
    refine main_ok_iff.mpr ?_
    rcases hgpu with hne | ⟨ht, hcid⟩
    · obtain ⟨u, us, hu⟩ : ∃ u us, collect_gpu_uuids w = u :: us := by
        cases hu : collect_gpu_uuids w with
        | nil => exact absurd hu hne
        | cons u us => exact ⟨u, us, rfl⟩
      simp [calc_components, hb, hci, hu]
    · cases hu : collect_gpu_uuids w with
      | nil => simp [calc_components, hb, hci, hu, ht, hcid]
      | cons u us => simp [calc_components, hb, hci, hu]

theorem mandatory_enforcement_witness :
    main wNoBoardSample argsSample envSample = .error ⟨msgMissingBoard, 3⟩ ∧
    main wNoCpuSample argsSample envSample = .error ⟨msgMissingCpu, 3⟩ ∧
    main wNoGpuSample argsSample envSample = .error ⟨msgMissingGpu, 3⟩ ∧
    main wNoCidSample argsSample envSample = .error ⟨msgMissingCid, 3⟩ ∧
    (∃ r, main wGpuSample argsSample envSample = .ok r) ∧
    (∃ r, main wTegraSample argsSample envSample = .ok r) :=
  ⟨(mandatory_enforcement wNoBoardSample argsSample envSample).1 (by decide),
   (mandatory_enforcement wNoCpuSample argsSample envSample).2.1
     (by decide) (by decide),
   (mandatory_enforcement wNoGpuSample argsSample envSample).2.2.1
     (by decide) (by decide) (by decide) (by decide),
   (mandatory_enforcement wNoCidSample argsSample envSample).2.2.2.1
     (by decide) (by decide) (by decide) (by decide) (by decide),
   (mandatory_enforcement wGpuSample argsSample envSample).2.2.2.2.2
     (by decide) (by decide) (Or.inl (by decide)),
   (mandatory_enforcement wTegraSample argsSample envSample).2.2.2.2.2
     (by decide) (by decide) (Or.inr ⟨by decide, by decide⟩)⟩

/-- C4: with no GPU UUID from the driver directory or the diagnostic
command, a non-Tegra run fails fatally; a Tegra run with a readable eMMC
CID carries the single token `gpu:<cid>` (the CID already lower-cased and
whitespace-free by `read_emmc_cid`); when UUIDs exist, the single `gpu:`
token is their deduplicated, sorted, `;`-join, and the UUID list is indeed
sorted and duplicate-free. -/
theorem gpu_fallback_chain (w : World) :
    (collect_gpu_uuids w = [] → is_tegra w = false →
      ∃ f, calc_components w = .error f ∧ f.code = 3) ∧
    (∀ parts, collect_gpu_uuids w = [] → is_tegra w = true →
      read_emmc_cid w ≠ "" → calc_components w = .ok parts →
      parts.filter (fun t => hasLabel "gpu:" t) = ["gpu:" ++ read_emmc_cid w]) ∧
    (∀ parts, collect_gpu_uuids w ≠ [] → calc_components w = .ok parts →
      ("gpu:" ++ String.intercalate ";" (collect_gpu_uuids w)) ∈ parts) ∧
    (List.Sorted (fun a b => strLe a b = true) (collect_gpu_uuids w) ∧
      (collect_gpu_uuids w).Nodup) := by
  refine ⟨?_, ?_, ?_, ?_, ?_⟩
  · intro hu ht
    by_cases hb : read_board_name w = ""
    · exact ⟨⟨msgMissingBoard, 3⟩, by simp [calc_components, hb], rfl⟩
    · cases hp : parse_cpuinfo w with
      | none => exact ⟨⟨msgMissingCpu, 3⟩, by simp [calc_components, hb, hp], rfl⟩
      | some ci =>
        exact ⟨⟨msgMissingGpu, 3⟩, by simp [calc_components, hb, hp, hu, ht], rfl⟩
  · intro parts hu ht hcid hcalc
    obtain ⟨hb, ci, hci⟩ := calc_ok_facets hcalc
    have hcalc2 : calc_components w
        = .ok (sortStrings (("brd:" ++ read_board_name w)
            :: (cpuTokens ci ++ ["gpu:" ++ read_emmc_cid w]))) := by
      simp [calc_components, hb, hci, hu, ht, hcid]
    rw [hcalc2] at hcalc
    injection hcalc with hparts
    subst hparts
    have hfil : (("brd:" ++ read_board_name w)
        :: (cpuTokens ci ++ ["gpu:" ++ read_emmc_cid w])).filter
          (fun t => hasLabel "gpu:" t) = ["gpu:" ++ read_emmc_cid w] := by
      by_cases hisa : ci.isa = "" <;>
        simp [cpuTokens, hisa, hasLabel_gpu_brd, hasLabel_gpu_cpuv,
          hasLabel_gpu_cpus, hasLabel_gpu_cpui, hasLabel_gpu_gpu]
    have hp2 := (sortStrings_perm (("brd:" ++ read_board_name w)
      :: (cpuTokens ci ++ ["gpu:" ++ read_emmc_cid w]))).filter
        (fun t => hasLabel "gpu:" t)
    rw [hfil] at hp2
    exact List.perm_singleton.mp hp2
  · intro parts hne hcalc
    obtain ⟨hb, ci, hci⟩ := calc_ok_facets hcalc
    obtain ⟨u, us, hu⟩ : ∃ u us, collect_gpu_uuids w = u :: us := by
      cases hu : collect_gpu_uuids w with
      | nil => exact absurd hu hne
      | cons u us => exact ⟨u, us, rfl⟩
    have hcalc2 : calc_components w
        = .ok (sortStrings (("brd:" ++ read_board_name w)
            :: (cpuTokens ci ++ ["gpu:" ++ String.intercalate ";" (u :: us)]))) := by
      simp [calc_components, hb, hci, hu]
    rw [hcalc2] at hcalc
    injection hcalc with hparts
    subst hparts
    rw [hu]
    exact mem_sortStrings.mpr (by simp)
  · exact sortStrings_sorted _
  · exact (sortStrings_perm _).symm.nodup
      ((sortStrings_perm _).symm.nodup (List.nodup_dedup _))

theorem gpu_fallback_chain_witness :
    (∃ f, calc_components wNoGpuSample = .error f ∧ f.code = 3) ∧
    (["brd:asusprimez390", "cpui:avx2,sse2", "cpus:6-158-10",
      "cpuv:genuineintel", "gpu:90014a6833"].filter (fun t => hasLabel "gpu:" t)
        = ["gpu:" ++ read_emmc_cid wTegraSample]) ∧
    ("gpu:" ++ String.intercalate ";" (collect_gpu_uuids wGpuSample))
      ∈ ["brd:asusprimez390", "cpui:avx2,sse2", "cpus:6-158-10",
         "cpuv:genuineintel", "gpu:gpu-995c63b7"] :=
  ⟨(gpu_fallback_chain wNoGpuSample).1 (by decide) (by decide),
   (gpu_fallback_chain wTegraSample).2.1 _ (by decide) (by decide) (by decide)
     (by decide),
   (gpu_fallback_chain wGpuSample).2.2.1 _ (by decide) (by decide)⟩

/-- C7: with no explicit `--out`, the output filename is
`license_request-` followed by exactly the first 12 characters of the
64-character lower-case hex `hwid_sha256`, then `.json`; an explicit path
is used unchanged. -/
theorem output_naming (w : World) (a : Args) (e : Env) :
    (a.out = "" → (main w a e).map Prod.fst
      = (main w a e).map
          (fun p => "license_request-" ++ p.2.hwid_sha256.take 12 ++ ".json")) ∧
    (a.out ≠ "" → (main w a e).map Prod.fst
      = (main w a e).map (fun _ => a.out)) ∧
    (∀ s, (sha256hexdigest s).length = 64) ∧
    (∀ s, ∀ c ∈ (sha256hexdigest s).toList, c ∈ hexDigitChars) := by
  refine ⟨?_, ?_, sha256hexdigest_length, sha256hexdigest_chars⟩
  · intro ha
    cases h : calc_components w <;> simp [main, h, Except.map, ha]
  · intro ha
    cases h : calc_components w <;> simp [main, h, Except.map, ha]

theorem output_naming_witness :
    ((main wGpuSample argsSample envSample).map Prod.fst
      = (main wGpuSample argsSample envSample).map
          (fun p => "license_request-" ++ p.2.hwid_sha256.take 12 ++ ".json")) ∧
    ((main wGpuSample argsOutSample envSample).map Prod.fst
      = (main wGpuSample argsOutSample envSample).map
          (fun _ => argsOutSample.out)) :=
  ⟨(output_naming wGpuSample argsSample envSample).1 (by decide),
   (output_naming wGpuSample argsOutSample envSample).2.1 (by decide)⟩

/-- C9: when no flag of the first processor block survives the allow-list
filter, the ISA subset is empty and no `cpui:` token appears in the
component list at all, while `cpuv:` and `cpus:` are still emitted. -/
theorem cpui_token_omitted (w : World) (ci : CpuId) :
    (∀ keep flags, (reSplitWS flags).filter (· ∈ keep) = [] →
      isaSubset keep flags = "") ∧
    (ci.isa = "" → cpuTokens ci = ["cpuv:" ++ ci.vendor, "cpus:" ++ ci.sig]) ∧
    (∀ parts, parse_cpuinfo w = some ci → ci.isa = "" →
      calc_components w = .ok parts →
      (∀ t ∈ parts, hasLabel "cpui:" t = false) ∧
      ("cpuv:" ++ ci.vendor) ∈ parts ∧ ("cpus:" ++ ci.sig) ∈ parts) := by
  refine ⟨?_, ?_, ?_⟩
  · intro keep flags h
    simp [isaSubset, h, sortStrings]
    rfl
  · intro h
    simp [cpuTokens, h]
  · intro parts hci hisa hcalc
    obtain ⟨hb, ci', hci'⟩ := calc_ok_facets hcalc
    rw [hci] at hci'
    injection hci' with hci'
    subst hci'
    have key : ∀ g : String,
        parts = sortStrings (("brd:" ++ read_board_name w)
          :: (cpuTokens ci ++ ["gpu:" ++ g])) →
        (∀ t ∈ parts, hasLabel "cpui:" t = false) ∧
        ("cpuv:" ++ ci.vendor) ∈ parts ∧ ("cpus:" ++ ci.sig) ∈ parts := by
      intro g hp
      subst hp
      refine ⟨?_, ?_, ?_⟩
      · intro t ht
        have hmem := mem_sortStrings.mp ht
        simp [cpuTokens, hisa] at hmem
        rcases hmem with h | h | h | h <;> subst h
        · exact hasLabel_cpui_brd _
        · exact hasLabel_cpui_cpuv _
        · exact hasLabel_cpui_cpus _
        · exact hasLabel_cpui_gpu _
      · exact mem_sortStrings.mpr (by simp [cpuTokens, hisa])
      · exact mem_sortStrings.mpr (by simp [cpuTokens, hisa])
    cases hu : collect_gpu_uuids w with
    | nil =>
      by_cases ht : is_tegra w
      · by_cases hcid : read_emmc_cid w = ""
        · rw [show calc_components w = .error ⟨msgMissingCid, 3⟩ from
            by simp [calc_components, hb, hci, hu, ht, hcid]] at hcalc
          cases hcalc
        · refine key (read_emmc_cid w) ?_
          rw [show calc_components w
              = .ok (sortStrings (("brd:" ++ read_board_name w)
                  :: (cpuTokens ci ++ ["gpu:" ++ read_emmc_cid w]))) from
            by simp [calc_components, hb, hci, hu, ht, hcid]] at hcalc
          exact (Except.ok.inj hcalc).symm
      · rw [show calc_components w = .error ⟨msgMissingGpu, 3⟩ from
          by simp [calc_components, hb, hci, hu, ht]] at hcalc
        cases hcalc
    | cons u us =>
      refine key (String.intercalate ";" (u :: us)) ?_
      rw [show calc_components w
          = .ok (sortStrings (("brd:" ++ read_board_name w)
              :: (cpuTokens ci ++ ["gpu:" ++ String.intercalate ";" (u :: us)]))) from
        by simp [calc_components, hb, hci, hu]] at hcalc
      exact (Except.ok.inj hcalc).symm

theorem cpui_token_omitted_witness :
    isaSubset keepFlagsX86 "fpu mmx ssse3" = "" ∧
    cpuTokens ⟨"genuineintel", "6-158-10", ""⟩
      = ["cpuv:genuineintel", "cpus:6-158-10"] ∧
    ((∀ t ∈ ["brd:asusprimez390", "cpus:6-158-10", "cpuv:genuineintel",
        "gpu:gpu-995c63b7"], hasLabel "cpui:" t = false) ∧
      "cpuv:genuineintel" ∈ ["brd:asusprimez390", "cpus:6-158-10",
        "cpuv:genuineintel", "gpu:gpu-995c63b7"] ∧
      "cpus:6-158-10" ∈ ["brd:asusprimez390", "cpus:6-158-10",
        "cpuv:genuineintel", "gpu:gpu-995c63b7"]) :=
  ⟨(cpui_token_omitted wNoIsaSample
      ⟨"genuineintel", "6-158-10", ""⟩).1 keepFlagsX86 "fpu mmx ssse3" (by decide),
   (cpui_token_omitted wNoIsaSample
      ⟨"genuineintel", "6-158-10", ""⟩).2.1 (by decide),
   (cpui_token_omitted wNoIsaSample
      ⟨"genuineintel", "6-158-10", ""⟩).2.2 _ (by decide) (by decide) (by decide)⟩

/-- C10: `env.gpu_count` is always the length of a second, independent GPU
UUID enumeration done while building the record, not a value derived from
the component list; on a Tegra run that used the eMMC CID fallback it is 0
even though a `gpu:` token is present in `hwid_components`. -/
theorem gpu_count_second_enumeration (w : World) (a : Args) (e : Env) :
    ((main w a e).map (fun p => p.2.env_gpu_count)
      = (main w a e).map (fun _ => (collect_gpu_uuids w).length)) ∧
    (read_board_name w ≠ "" → parse_cpuinfo w ≠ none →
      collect_gpu_uuids w = [] → is_tegra w = true → read_emmc_cid w ≠ "" →
      ∃ p, main w a e = .ok p ∧ p.2.env_gpu_count = 0 ∧
        ("gpu:" ++ read_emmc_cid w) ∈ p.2.hwid_components) := by
  have hcount : (main w a e).map (fun p => p.2.env_gpu_count)
      = (main w a e).map (fun _ => (collect_gpu_uuids w).length) := by
    cases h : calc_components w <;> simp [main, h, Except.map]
  refine ⟨hcount, ?_⟩
  intro hb hc hu ht hcid
  obtain ⟨ci, hci⟩ := Option.ne_none_iff_exists'.mp hc
  have hcalc2 : calc_components w
      = .ok (sortStrings (("brd:" ++ read_board_name w)
          :: (cpuTokens ci ++ ["gpu:" ++ read_emmc_cid w]))) := by
    simp [calc_components, hb, hci, hu, ht, hcid]
  cases hm : main w a e with
  | error f =>
    exfalso
    unfold main at hm
    rw [hcalc2] at hm
    simp at hm
  | ok p =>
    refine ⟨p, rfl, ?_, ?_⟩
    · have h1 := hcount
      rw [hm] at h1
      simp [Except.map] at h1
      rw [h1, hu]
      rfl
    · have hcomp : (main w a e).map (fun q => q.2.hwid_components)
          = .ok (sortStrings (("brd:" ++ read_board_name w)
              :: (cpuTokens ci ++ ["gpu:" ++ read_emmc_cid w]))) := by
        simp [main, hcalc2, Except.map]
      rw [hm] at hcomp
      simp [Except.map] at hcomp
      rw [hcomp]
      exact mem_sortStrings.mpr (by simp)

/-- C6 counterexample: `read_board_name` on the readable one-line content
`My Board` returns `myboard` — all whitespace deleted — not the
whitespace-collapsed `my board` the claim asserts. -/
theorem board_name_collapse_counterexample :
    read_board_name wBoardCESample = "myboard" ∧
    collapseWS (lowerStr "My Board") = "my board" ∧
    read_board_name wBoardCESample ≠ collapseWS (lowerStr "My Board") :=
  ⟨by decide, by decide, by decide⟩

/-- C6 (amended): for every readable board-name file content, the collector
returns the first line with all whitespace deleted (not merely collapsed)
and lower-cased; when that normalized value is empty and the WSL fallback
applies, the literal `wsl` is returned, and with no fallback the result is
empty. -/
theorem board_name_normalization (w : World) (content : String)
    (hw : w.board_name = some content) :
    read_first_line w.board_name
      = String.mk (((firstLine content).toList.filter
          (fun c => !isWSChar c)).map Char.toLower) ∧
    (read_first_line w.board_name ≠ "" →
      read_board_name w = read_first_line w.board_name) ∧
    (read_first_line w.board_name = "" → is_wsl w = true →
      read_board_name w = "wsl") ∧
    (read_first_line w.board_name = "" → is_wsl w = false →
      read_board_name w = "") := by
  refine ⟨?_, ?_, ?_, ?_⟩
  · rw [hw]
    show lowerStr (removeWS (stripWS (firstLine content))) = _
    rw [removeWS_stripWS]
    rfl
  · intro h
    simp [read_board_name, h]
  · intro h hw2
    simp [read_board_name, h, hw2]
  · intro h hw2
    simp [read_board_name, h, hw2]

theorem board_name_normalization_witness :
    (read_first_line wBoardCESample.board_name
      = String.mk (((firstLine "My Board").toList.filter
          (fun c => !isWSChar c)).map Char.toLower)) ∧
    read_board_name wWslSample = "wsl" :=
  ⟨(board_name_normalization wBoardCESample "My Board" rfl).1,
   (board_name_normalization wWslSample "\n" rfl).2.2.1 (by decide) (by decide)⟩

/-- C5: on a cpuinfo whose first processor block carries complete x86
fields with family 6, model 158, stepping 10 and a flags line containing
`sse2 avx2 ssse3` (plus the unrecognized `fpu`), the CPU tokens are exactly
`cpuv:<vendor>`, `cpus:6-158-10` and `cpui:avx2,sse2`: `ssse3` is dropped by
the allow-list and the kept flags are sorted and comma-joined; the second
processor block after the blank line is ignored. -/
theorem cpu_profile_x86 (w : World) (v : String)
    (hv : ∀ c ∈ v.toList, 'a' ≤ c ∧ c ≤ 'z') (hvne : v ≠ "")
    (hw : w.cpuinfo = some (cpuinfoX86 v)) :
    parse_cpuinfo w = some ⟨v, "6-158-10", "avx2,sse2"⟩ ∧
    cpuTokens ⟨v, "6-158-10", "avx2,sse2"⟩
      = ["cpuv:" ++ v, "cpus:6-158-10", "cpui:avx2,sse2"] := by
  obtain ⟨hstrip, hrem, hlow⟩ := norm_lowercase hv
  have hV : removeWS (lowerStr (stripWS (String.mk (' ' :: v.toList)))) = v := by
    have h1 : stripWS (String.mk (' ' :: v.toList)) = stripWS v := rfl
    rw [h1, hstrip, hlow, hrem]
  have hnl10 : ∀ l ∈ ["processor\t: 0", "vendor_id\t: " ++ v, "cpu family\t: 6",
      "model\t\t: 158", "model name\t: Core i7", "stepping\t: 10",
      "flags\t\t: fpu sse2 avx2 ssse3", "", "processor\t: 1", "stepping\t: 13"],
      ∀ c ∈ l.toList, c ≠ '\n' := by
    intro l hl c hc
    by_cases hvline : l = "vendor_id\t: " ++ v
    · subst hvline
      have hsplitl : ("vendor_id\t: " ++ v).toList
          = "vendor_id\t: ".toList ++ v.toList := String.data_append _ _
      rw [hsplitl] at hc
      rcases List.mem_append.mp hc with h1 | h1
      · exact (show ∀ x ∈ "vendor_id\t: ".toList, x ≠ '\n' by decide) c h1
      · exact (lowercase_char_props (hv c h1).1 (hv c h1).2).2.1
    · have hl2 : l ∈ ["processor\t: 0", "cpu family\t: 6", "model\t\t: 158",
        "model name\t: Core i7", "stepping\t: 10", "flags\t\t: fpu sse2 avx2 ssse3",
        "", "processor\t: 1", "stepping\t: 13"] := by
        simp only [List.mem_cons, List.not_mem_nil, or_false] at hl ⊢
        tauto
      exact (show ∀ m ∈ ["processor\t: 0", "cpu family\t: 6", "model\t\t: 158",
        "model name\t: Core i7", "stepping\t: 10", "flags\t\t: fpu sse2 avx2 ssse3",
        "", "processor\t: 1", "stepping\t: 13"], ∀ c ∈ m.toList, c ≠ '\n'
        by decide) l hl2 c hc
  have hsplit : splitLinesStr (cpuinfoX86 v)
      = ["processor\t: 0", "vendor_id\t: " ++ v, "cpu family\t: 6",
         "model\t\t: 158", "model name\t: Core i7", "stepping\t: 10",
         "flags\t\t: fpu sse2 avx2 ssse3", "", "processor\t: 1", "stepping\t: 13"] := by
    show splitLinesStr (joinNL (["processor\t: 0", "vendor_id\t: " ++ v,
      "cpu family\t: 6", "model\t\t: 158", "model name\t: Core i7", "stepping\t: 10",
      "flags\t\t: fpu sse2 avx2 ssse3", "", "processor\t: 1", "stepping\t: 13"]
        ++ [""])) = _
    exact splitLinesStr_joinNL _ hnl10
  have hvpos : (decide (stripWS ("vendor_id\t: " ++ v) ≠ "")) = true :=
    decide_eq_true (stripWS_ne_empty (c := 'v') rfl rfl)
  have htake : (["processor\t: 0", "vendor_id\t: " ++ v, "cpu family\t: 6",
      "model\t\t: 158", "model name\t: Core i7", "stepping\t: 10",
      "flags\t\t: fpu sse2 avx2 ssse3", "", "processor\t: 1", "stepping\t: 13"]
        : List String).takeWhile (fun l => stripWS l ≠ "")
      = ["processor\t: 0", "vendor_id\t: " ++ v, "cpu family\t: 6",
         "model\t\t: 158", "model name\t: Core i7", "stepping\t: 10",
         "flags\t\t: fpu sse2 avx2 ssse3"] := by
    simp only [List.takeWhile_cons, hvpos, decide_eq_true_eq, if_true]
    rw [if_pos (show stripWS "processor\t: 0" ≠ "" by decide),
        if_pos (show stripWS "cpu family\t: 6" ≠ "" by decide),
        if_pos (show stripWS "model\t\t: 158" ≠ "" by decide),
        if_pos (show stripWS "model name\t: Core i7" ≠ "" by decide),
        if_pos (show stripWS "stepping\t: 10" ≠ "" by decide),
        if_pos (show stripWS "flags\t\t: fpu sse2 avx2 ssse3" ≠ "" by decide),
        if_neg (show ¬(stripWS "" ≠ "") by decide)]
  have hfold : (["processor\t: 0", "vendor_id\t: " ++ v, "cpu family\t: 6",
      "model\t\t: 158", "model name\t: Core i7", "stepping\t: 10",
      "flags\t\t: fpu sse2 avx2 ssse3"] : List String).foldl cpuLineUpdate {}
      = ({ vendor := v, family := "6", model := "158", stepping := "10",
           flags := "fpu sse2 avx2 ssse3" } : CpuRaw) := by
    simp only [List.foldl_cons, List.foldl_nil, cpuLineUpdate_processor0,
      cpuLineUpdate_vendor, cpuLineUpdate_family, cpuLineUpdate_model,
      cpuLineUpdate_modelname, cpuLineUpdate_stepping, cpuLineUpdate_flags]
    simp only [hV]
  have hne2 : cpuinfoX86 v ≠ "" := by
    intro h0
    have h1 : (cpuinfoX86 v).toList
        = "processor\t: 0".toList ++ '\n' :: (joinNL _).toList :=
      joinNL_toList_cons _ _ _
    rw [h0] at h1
    simp [String.toList] at h1
  refine ⟨?_, ?_⟩
  · unfold parse_cpuinfo
    rw [hw]
    simp only [read_all, Option.getD]
    rw [if_neg hne2]
    simp only [hsplit, htake, hfold]
    rw [if_pos (show (decide (v ≠ "") && decide (("6" : String) ≠ "")
        && decide (("158" : String) ≠ "") && decide (("10" : String) ≠ "")) = true
      from by simp [hvne])]
    rfl
  · rfl

theorem cpu_profile_x86_witness :
    parse_cpuinfo wC5Sample = some ⟨"genuineintel", "6-158-10", "avx2,sse2"⟩ ∧
    cpuTokens ⟨"genuineintel", "6-158-10", "avx2,sse2"⟩
      = ["cpuv:" ++ "genuineintel", "cpus:6-158-10", "cpui:avx2,sse2"] :=
  cpu_profile_x86 wC5Sample "genuineintel" (by decide) (by decide) rfl

theorem gpu_count_second_enumeration_witness :
    ((main wTegraSample argsSample envSample).map (fun p => p.2.env_gpu_count)
      = (main wTegraSample argsSample envSample).map
          (fun _ => (collect_gpu_uuids wTegraSample).length)) ∧
    (∃ p, main wTegraSample argsSample envSample = .ok p ∧
      p.2.env_gpu_count = 0 ∧
      ("gpu:" ++ read_emmc_cid wTegraSample) ∈ p.2.hwid_components) :=
  ⟨(gpu_count_second_enumeration wTegraSample argsSample envSample).1,
   (gpu_count_second_enumeration wTegraSample argsSample envSample).2
     (by decide) (by decide) (by decide) (by decide) (by decide)⟩

end HwidClient
